import Mathlib

/-!
# ScubaOverlay: verification of the dive-log / overlay core

Shallow embedding of the core of the ScubaOverlay repository
(`src/parser.py`, `src/video_metadata.py`, `src/overlay.py`,
`src/profile_graph.py`) together with proofs about it.

Modelling conventions:
* Python `int` is `Int`; Python `float` is `ℚ` (no floating-point rounding is
  relevant to any statement proved here: parsed values are only stored,
  copied and compared, never combined by lossy arithmetic).
* `datetime` values are instants measured in seconds (`Int`); `timedelta(hours=h)`
  is `3600 * h` seconds, and `datetime` comparison is the numeric order.
* Python `None` / optional attributes become `Option`.
* Exceptions become `Except` / explicit error values.
* XML attribute/element lookup is modelled by record structures holding the
  already-parsed optional field values; a field whose text the source parser
  skips on `ValueError` is `none` exactly when it is absent or unparseable.
-/

instance {ε α : Type} [DecidableEq ε] [DecidableEq α] : DecidableEq (Except ε α) := fun a b =>
  match a, b with
  | .ok a, .ok b =>
    if h : a = b then .isTrue (by rw [h]) else .isFalse (by simp [h])
  | .error a, .error b =>
    if h : a = b then .isTrue (by rw [h]) else .isFalse (by simp [h])
  | .ok _, .error _ => .isFalse (by simp)
  | .error _, .ok _ => .isFalse (by simp)

/-- `DiveSample` from `src/parser.py`: one instant of dive-computer state.
Field names and seed defaults follow the Python dataclass. -/
structure DiveSample where
  time : Int
  depth : ℚ
  ndl : Option Int := none
  tts : Option Int := none
  stop_depth : Option ℚ := some 0
  stop_time : Option Int := some 0
  temperature : Option ℚ := none
  pressure : List (Option ℚ) := []
  fractionO2 : Option ℚ := none
  fractionHe : Option ℚ := none
  sac : Option ℚ := none
  gtr : Option Int := none
  ppo2 : Option ℚ := none
  cns : Option Int := none
  ppo2_sensors : List (Option ℚ) := []
deriving DecidableEq, Repr

/-- `DiveData` from `src/parser.py`: samples plus dive start/end instants. -/
structure DiveData where
  samples : List DiveSample
  start_time : Int
  end_time : Int
deriving DecidableEq, Repr

/-- The two segment-extraction errors of `src/video_segment_errors.py`,
carrying exactly the data the Python exception constructors receive. -/
inductive VideoSegmentError where
  | SegmentOutOfBoundsError (segment_start segment_end dive_duration : Int)
  | EmptySegmentError (segment_start segment_end : Int) (sample_count : Nat)
deriving DecidableEq, Repr

/-- `extract_dive_segment` from `src/parser.py` lines 70-140, step for step:
empty-sample check, duration from the last sample, out-of-bounds check on the
*unclamped* start, clamping of end then start, the three selection passes
(one anchor before, all inside inclusive, one anchor after), and the final
emptiness check (which reports the *clamped* bounds). -/
def extract_dive_segment (dive_data : DiveData) (segment_start segment_end : Int) :
    Except VideoSegmentError (List DiveSample) :=
  let samples := dive_data.samples
  match samples.getLast? with
  | none => .error (.EmptySegmentError segment_start segment_end 0)
  | some last =>
    let dive_duration := last.time
    if segment_start ≥ dive_duration then
      .error (.SegmentOutOfBoundsError segment_start segment_end dive_duration)
    else
      let segment_end := if segment_end > dive_duration then dive_duration else segment_end
      let segment_start := if segment_start < 0 then 0 else segment_start
      let before :=
        match samples.findIdx? (fun s => decide (s.time ≥ segment_start)) with
        | some i => if i > 0 then (samples.get? (i - 1)).toList else []
        | none => []
      let inside := samples.filter
        (fun s => decide (segment_start ≤ s.time ∧ s.time ≤ segment_end))
      let after := (samples.find? (fun s => decide (s.time > segment_end))).toList
      let segment_samples := before ++ inside ++ after
      if segment_samples.isEmpty then
        .error (.EmptySegmentError segment_start segment_end samples.length)
      else
        .ok segment_samples

/-!
Python string operations, modelled structurally on `List Char` (the builtin
`String` operations of this Lean version do not reduce inside the kernel, so
concrete witnesses could not be checked through them).  `String` values enter
and leave through `.data` / `String.mk`.
-/

/-- `str.strip()` restricted to whitespace: drop whitespace on both ends. -/
def pyStrip (s : List Char) : List Char :=
  ((s.dropWhile Char.isWhitespace).reverse.dropWhile Char.isWhitespace).reverse

/-- Does `p` occur at the head of `s`? (Python `str.startswith`). -/
def beginsWith : List Char → List Char → Bool
  | [], _ => true
  | _ :: _, [] => false
  | p :: ps, c :: cs => p = c && beginsWith ps cs

/-- `str.split(sep)` for a single-character separator: Python semantics,
so the empty string yields `[""]` and separators at the ends yield empty
parts. -/
def pySplit (sep : Char) : List Char → List (List Char)
  | [] => [[]]
  | c :: rest =>
    if c = sep then [] :: pySplit sep rest
    else
      match pySplit sep rest with
      | g :: gs => (c :: g) :: gs
      | [] => [[c]]

/-- `t.replace(" min", "")`: remove every (non-overlapping, left-to-right)
occurrence of the four characters `" min"`. -/
def stripMinChars : List Char → List Char
  | ' ' :: 'm' :: 'i' :: 'n' :: rest => stripMinChars rest
  | c :: rest => c :: stripMinChars rest
  | [] => []

/-- `str.replace(pattern, repl)` for a non-empty pattern, fuel-bounded; every
step consumes at least one input character, so `fuel = s.length` is always
enough (callers pass exactly that). -/
def replaceChars (pattern repl : List Char) : Nat → List Char → List Char
  | _, [] => []
  | 0, s => s
  | fuel + 1, c :: rest =>
    if beginsWith pattern (c :: rest) && !pattern.isEmpty then
      repl ++ replaceChars pattern repl fuel ((c :: rest).drop pattern.length)
    else
      c :: replaceChars pattern repl fuel rest

/-- Python `int(str)`: optional surrounding whitespace, optional sign, one or
more decimal digits.  (Python additionally accepts `_` digit grouping, which
no dive log uses and which is not modelled.)  `none` models `ValueError`. -/
def pyIntChars? (s : List Char) : Option Int :=
  let s := pyStrip s
  let sign : Int := if beginsWith [Char.ofNat 45] s then -1 else 1
  let digits :=
    if beginsWith [Char.ofNat 45] s || beginsWith [Char.ofNat 43] s then s.drop 1 else s
  if digits.length > 0 && digits.all Char.isDigit then
    some (sign * digits.foldl (fun acc c => 10 * acc + ((c.toNat : Int) - 48)) 0)
  else
    none

/-- Python `int(str)` on a `String`. -/
def pyInt? (s : String) : Option Int := pyIntChars? s.data

/-- `_parse_time_to_seconds` from `src/parser.py` lines 143-152 (the copy in
the top-level `parser.py` is identical): strip a `" min"` suffix and
whitespace, split on `":"`, parse every part with `int`, then combine
`MM:SS` / `H:MM:SS`; any other number of parts yields `0`.  A `none` input
raises `NoDiveDataError`, an unparseable part raises `ValueError`; both are
modelled as `.error` carrying the Python message. -/
def _parse_time_to_seconds (t : Option String) : Except String Int :=
  match t with
  | none => .error ("Time string cannot be None")
  | some t =>
    let chars := pyStrip (stripMinChars t.data)
    match (pySplit ':' chars).mapM pyIntChars? with
    | none => .error ("invalid literal for int() with base 10")
    | some parts =>
      match parts with
      | [m, s] => .ok (m * 60 + s)
      | [h, m, s] => .ok (h * 3600 + m * 60 + s)
      | _ => .ok 0

/-- `generate_timezone_offsets` from `src/video_metadata.py` lines 37-47:
yield 0, then `i, -i` for `i = 1..10`. -/
def generate_timezone_offsets : List Int :=
  0 :: (List.range' 1 10).foldr (fun i acc => (i : Int) :: (-(i : Int)) :: acc) []

/-- `detect_timezone_offset` from `src/video_metadata.py` lines 49-70: return
the first generated offset that places `video_time + offset` hours inside
`[dive_start, dive_end]` (both bounds inclusive), else `none`. -/
def detect_timezone_offset (video_time dive_start dive_end : Int) : Option Int :=
  generate_timezone_offsets.find? (fun offset_hours =>
    let adjusted_time := video_time + 3600 * offset_hours
    decide (dive_start ≤ adjusted_time ∧ adjusted_time ≤ dive_end))

example : generate_timezone_offsets =
    [0, 1, -1, 2, -2, 3, -3, 4, -4, 5, -5, 6, -6, 7, -7, 8, -8, 9, -9, 10, -10] := by decide

example : _parse_time_to_seconds (some ("12:30")) = .ok 750 := by decide

example : detect_timezone_offset 10800 0 1800 = some (-3) := by decide

/-!
## The dive-log parsers (`SubsurfaceParser.parse`, `ShearwaterParser.parse`)

A source record holds the already-parsed optional values of one `<sample>`
(Subsurface) or one `<diveLogRecord>` (Shearwater).  A field is `none` when
the attribute/element is absent — or, for the fields whose numeric parse the
Python code guards with `try/except ... pass` (or skips via `isdigit`), when
its text is unparseable.  Fields whose parse is *unguarded* (`time`, `ndl`,
`tts`, `stopdepth`, ...) abort the whole parse on bad text, so a record list
only ever represents a successfully parsed file.
-/

/-- One Subsurface `<sample>` element's parsed attributes.
`sensor i` models attribute `sensor{i+1}` (`i < 3`), `pressure i` models
attribute `pressure{i}` (`i <` number of `<cylinder>` elements); for both,
`none` covers "absent" and "unparseable" (the code skips those slots). -/
structure SubsurfaceRecord where
  time : Int
  depth : Option ℚ := none
  ndl : Option Int := none
  tts : Option Int := none
  temp : Option ℚ := none
  stopdepth : Option ℚ := none
  stoptime : Option Int := none
  dc_supplied_ppo2 : Option ℚ := none
  sensor : Nat → Option ℚ := fun _ => none
  pressure : Nat → Option ℚ := fun _ => none

/-- The indexed update loops `for i in range(...)` over the `ppo2_sensors` /
`pressure` slot lists: slot `k` becomes `upd k old`. -/
def patchSlots (upd : Nat → Option ℚ → Option ℚ) : Nat → List (Option ℚ) → List (Option ℚ)
  | _, [] => []
  | k, x :: xs => upd k x :: patchSlots upd (k + 1) xs

/-- One iteration of the Subsurface sample loop (`parser.py` lines 211-248):
overwrite in `last_values` exactly the fields present in this record. -/
def subStep (lv : DiveSample) (r : SubsurfaceRecord) : DiveSample :=
  { lv with
    time := r.time
    depth := r.depth.getD lv.depth
    ndl := match r.ndl with | some v => some v | none => lv.ndl
    tts := match r.tts with | some v => some v | none => lv.tts
    temperature := match r.temp with | some v => some v | none => lv.temperature
    stop_depth := match r.stopdepth with | some v => some v | none => lv.stop_depth
    stop_time := match r.stoptime with | some v => some v | none => lv.stop_time
    ppo2 := match r.dc_supplied_ppo2 with | some v => some v | none => lv.ppo2
    ppo2_sensors := patchSlots
      (fun i old => match r.sensor i with | some v => some v | none => old) 0 lv.ppo2_sensors
    pressure := patchSlots
      (fun i old => match r.pressure i with | some v => some v | none => old) 0 lv.pressure }

/-- The `last_values` seed of `SubsurfaceParser.parse` (lines 197-209):
`DiveSample(time=0, depth=0.0, ndl=99, cns=0, ppo2=None)`, then
`pressure = [None] * len(cylinders)` and `ppo2_sensors = [None] * 3`. -/
def subSeed (nCyl : Nat) : DiveSample :=
  { time := 0
    depth := 0
    ndl := some 99
    cns := some 0
    ppo2 := none
    pressure := List.replicate nCyl none
    ppo2_sensors := [none, none, none] }

/-- The record loop shared by both parsers: thread `last_values` through
`step` and append a (deep) copy of the updated state for every record. -/
def buildSamples {R : Type} (step : DiveSample → R → DiveSample) :
    DiveSample → List R → List DiveSample
  | _, [] => []
  | lv, r :: rs =>
    let lv2 := step lv r
    lv2 :: buildSamples step lv2 rs

/-- The base sample sequence built by `SubsurfaceParser.parse` before
gas-change events are applied (lines 195-251). -/
def subsurfaceSamples (nCyl : Nat) (records : List SubsurfaceRecord) : List DiveSample :=
  buildSamples subStep (subSeed nCyl) records

/-- One parsed Subsurface `gaschange` event (lines 257-270): time plus
optional O2/He percentages already converted to fractions. -/
structure GasChangeEvent where
  time : Int
  fractionO2 : Option ℚ
  fractionHe : Option ℚ
deriving DecidableEq, Repr

/-- Stable ascending insertion: `e` goes after every element of equal time. -/
def insertByTime (e : GasChangeEvent) : List GasChangeEvent → List GasChangeEvent
  | [] => [e]
  | x :: xs => if e.time < x.time then e :: x :: xs else x :: insertByTime e xs

/-- `gas_changes.sort(key=lambda x: x["time"])`: Python's sort is stable and
ascending, modelled by left-to-right stable insertion. -/
def sortGasChanges (l : List GasChangeEvent) : List GasChangeEvent :=
  l.foldl (fun acc e => insertByTime e acc) []

/-- The inner injection loop `for i in range(target_index, len(profile_data))`
(lines 287-289): overwrite `fractionO2`/`fractionHe` on every sample from
index `k` on.  `i` is the index of the head of the remaining list. -/
def setGasFrom (k : Nat) (g : GasChangeEvent) : Nat → List DiveSample → List DiveSample
  | _, [] => []
  | i, s :: ss =>
    (if k ≤ i then { s with fractionO2 := g.fractionO2, fractionHe := g.fractionHe } else s)
      :: setGasFrom k g (i + 1) ss

/-- Injection of a single gas change (lines 275-289): find the first sample
with `time >= target_time`; if found, take its index (`list.index` returns
the first *value-equal* position, which theorem `applyGasChange_get?` below
shows is that same first position) and overwrite the gas fractions from
there to the end. -/
def applyGasChange (profile_data : List DiveSample) (g : GasChangeEvent) : List DiveSample :=
  match profile_data.find? (fun s => decide (s.time ≥ g.time)) with
  | none => profile_data
  | some target_sample =>
    let target_index := profile_data.findIdx (fun s => s == target_sample)
    setGasFrom target_index g 0 profile_data

/-- The gas-change pass of `SubsurfaceParser.parse` (lines 272-289): sort the
events by time ascending, then apply them in that order. -/
def applyGasChanges (profile_data : List DiveSample) (events : List GasChangeEvent) :
    List DiveSample :=
  (sortGasChanges events).foldl applyGasChange profile_data

/-- The full canonical sample sequence returned by `SubsurfaceParser.parse`:
base carry-forward samples, then forward-filled gas-change events. -/
def subsurfaceParse (nCyl : Nat) (records : List SubsurfaceRecord)
    (events : List GasChangeEvent) : List DiveSample :=
  applyGasChanges (subsurfaceSamples nCyl records) events

/-- One Shearwater `<diveLogRecord>`'s parsed child elements
(`parser.py` lines 355-441).  `currentTime_ms` is required (missing or
unparseable aborts the parse).  `tankPressurePSI i` models element
`tank{i}pressurePSI` (`i < 4`): `none` = absent, `some none` = present but
non-numeric text such as "AI is off" (the code then *resets* the slot to
`None`), `some (some psi)` = numeric PSI value. -/
structure ShearwaterRecord where
  currentTime_ms : Int
  currentDepth : Option ℚ := none
  currentNdl : Option Int := none
  ttsMins : Option Int := none
  waterTemp : Option ℚ := none
  firstStopDepth : Option ℚ := none
  firstStopTime : Option Int := none
  fractionO2 : Option ℚ := none
  fractionHe : Option ℚ := none
  averagePPO2 : Option ℚ := none
  tankPressurePSI : Nat → Option (Option ℚ) := fun _ => none
  sac : Option ℚ := none
  gasTime : Option Int := none

/-- The PSI→bar factor `0.0689476` of line 420, as an exact rational. -/
def psiToBar : ℚ := 689476 / 10000000

/-- One iteration of the Shearwater record loop (lines 355-441).  The time is
`int(currentTime) // 1000` (Python floor division, hence `Int.fdiv`). -/
def shearStep (lv : DiveSample) (r : ShearwaterRecord) : DiveSample :=
  { lv with
    time := r.currentTime_ms.fdiv 1000
    depth := r.currentDepth.getD lv.depth
    ndl := match r.currentNdl with | some v => some v | none => lv.ndl
    tts := match r.ttsMins with | some v => some v | none => lv.tts
    temperature := match r.waterTemp with | some v => some v | none => lv.temperature
    stop_depth := match r.firstStopDepth with | some v => some v | none => lv.stop_depth
    stop_time := match r.firstStopTime with | some v => some v | none => lv.stop_time
    fractionO2 := match r.fractionO2 with | some v => some v | none => lv.fractionO2
    fractionHe := match r.fractionHe with | some v => some v | none => lv.fractionHe
    ppo2 := match r.averagePPO2 with | some v => some v | none => lv.ppo2
    pressure := patchSlots
      (fun i old =>
        match r.tankPressurePSI i with
        | some (some psi) => some (psi * psiToBar)
        | some none => none
        | none => old) 0 lv.pressure
    sac := match r.sac with | some v => some v | none => lv.sac
    gtr := match r.gasTime with | some v => some v | none => lv.gtr }

/-- The `last_values` seed of `ShearwaterParser.parse` (lines 346-353):
`DiveSample(time=0, depth=0.0, ndl=99, pressure=[None]*4)` and
`ppo2_sensors = [None]*3`. -/
def shearSeed : DiveSample :=
  { time := 0
    depth := 0
    ndl := some 99
    pressure := List.replicate 4 none
    ppo2_sensors := [none, none, none] }

/-- The canonical sample sequence returned by `ShearwaterParser.parse`. -/
def shearwaterSamples (records : List ShearwaterRecord) : List DiveSample :=
  buildSamples shearStep shearSeed records

/-!
## Carry-forward machinery

`lastSetValue rget dflt records` is the value the spec's carry-forward rule
predicts for a field after `records`: the value set by the last record that
sets it (`rget r = some v`), else the seed default.
-/

/-- The spec-side "most recently set value, else default". -/
def lastSetValue {R α : Type} (rget : R → Option α) (dflt : α) (records : List R) : α :=
  ((records.filterMap rget).getLast?).getD dflt

theorem lastSetValue_cons {R α : Type} (rget : R → Option α) (d : α) (r : R) (l : List R) :
    lastSetValue rget d (r :: l) = lastSetValue rget ((rget r).getD d) l := by
  unfold lastSetValue
  cases hr : rget r with
  | none => simp [List.filterMap_cons, hr]
  | some a =>
    simp only [List.filterMap_cons, hr, Option.getD_some]
    cases hfl : l.filterMap rget with
    | nil => simp
    | cons b t =>
      simp only [List.getLast?_cons_cons]
      cases hgl : (b :: t).getLast? with
      | none => simp at hgl
      | some v => rfl

theorem lastSetValue_never {R α : Type} (d : α) (l : List R) :
    lastSetValue (fun _ => (none : Option α)) d l = d := by
  induction l with
  | nil => rfl
  | cons r t ih => rw [lastSetValue_cons]; exact ih

/-- Carry-forward for one field through the record loop: if each step updates
the field to `rget r` when set and keeps it otherwise (under an invariant
`Inv` preserved by the loop), then sample `j` carries the value of the last
record among the first `j+1` that set the field, else the seed value. -/
theorem buildSamples_field {R α : Type} (step : DiveSample → R → DiveSample)
    (Inv : DiveSample → Prop) (get : DiveSample → α) (rget : R → Option α)
    (hInv : ∀ lv r, Inv lv → Inv (step lv r))
    (hstep : ∀ lv r, Inv lv → get (step lv r) = (rget r).getD (get lv)) :
    ∀ (records : List R) (seed : DiveSample), Inv seed → ∀ (j : Nat) (x : DiveSample),
      (buildSamples step seed records).get? j = some x →
      get x = lastSetValue rget (get seed) (records.take (j + 1)) := by
  intro records
  induction records with
  | nil => intro seed _ j x h; simp [buildSamples] at h
  | cons r rs ih =>
    intro seed hseed j x h
    cases j with
    | zero =>
      simp only [buildSamples, List.get?_cons_zero, Option.some.injEq] at h
      rw [← h, hstep seed r hseed, List.take_succ_cons, List.take_zero,
        lastSetValue_cons]
      rfl
    | succ j =>
      simp only [buildSamples, List.get?_cons_succ] at h
      rw [List.take_succ_cons, lastSetValue_cons, ← hstep seed r hseed]
      exact ih (step seed r) (hInv seed r hseed) j x h

theorem buildSamples_length {R : Type} (step : DiveSample → R → DiveSample) :
    ∀ (seed : DiveSample) (records : List R),
      (buildSamples step seed records).length = records.length := by
  intro seed records
  induction records generalizing seed with
  | nil => rfl
  | cons r rs ih => simp [buildSamples, ih]

theorem buildSamples_map {R : Type} (step : DiveSample → R → DiveSample)
    (f : DiveSample → Int) (g : R → Int) (hstep : ∀ lv r, f (step lv r) = g r) :
    ∀ (seed : DiveSample) (records : List R),
      (buildSamples step seed records).map f = records.map g := by
  intro seed records
  induction records generalizing seed with
  | nil => rfl
  | cons r rs ih => simp [buildSamples, hstep, ih]

theorem patchSlots_length (upd : Nat → Option ℚ → Option ℚ) :
    ∀ (l : List (Option ℚ)) (k : Nat), (patchSlots upd k l).length = l.length := by
  intro l
  induction l with
  | nil => intro k; rfl
  | cons x xs ih => intro k; simp [patchSlots, ih]

theorem patchSlots_getD (upd : Nat → Option ℚ → Option ℚ) :
    ∀ (l : List (Option ℚ)) (k i : Nat), i < l.length →
      (patchSlots upd k l).getD i none = upd (k + i) (l.getD i none) := by
  intro l
  induction l with
  | nil => intro k i h; simp at h
  | cons x xs ih =>
    intro k i h
    cases i with
    | zero => simp [patchSlots]
    | succ i =>
      simp only [patchSlots, List.getD_cons_succ]
      rw [ih (k + 1) i (by simpa using h)]
      congr 1
      omega

/-!
## Gas-change injection: what it changes and what it preserves
-/

/-- Equality on every `DiveSample` field except the two gas fractions. -/
def sameExceptGas (a b : DiveSample) : Prop :=
  a.time = b.time ∧ a.depth = b.depth ∧ a.ndl = b.ndl ∧ a.tts = b.tts ∧
  a.stop_depth = b.stop_depth ∧ a.stop_time = b.stop_time ∧
  a.temperature = b.temperature ∧ a.pressure = b.pressure ∧ a.sac = b.sac ∧
  a.gtr = b.gtr ∧ a.ppo2 = b.ppo2 ∧ a.cns = b.cns ∧ a.ppo2_sensors = b.ppo2_sensors

theorem sameExceptGas_refl (a : DiveSample) : sameExceptGas a a := by
  simp [sameExceptGas]

theorem sameExceptGas_trans {a b c : DiveSample} :
    sameExceptGas a b → sameExceptGas b c → sameExceptGas a c := by
  intro h1 h2
  simp only [sameExceptGas] at *
  obtain ⟨e1, e2, e3, e4, e5, e6, e7, e8, e9, e10, e11, e12, e13⟩ := h1
  obtain ⟨f1, f2, f3, f4, f5, f6, f7, f8, f9, f10, f11, f12, f13⟩ := h2
  exact ⟨e1.trans f1, e2.trans f2, e3.trans f3, e4.trans f4, e5.trans f5,
    e6.trans f6, e7.trans f7, e8.trans f8, e9.trans f9, e10.trans f10,
    e11.trans f11, e12.trans f12, e13.trans f13⟩

theorem forall₂_seg_refl : ∀ (l : List DiveSample), List.Forall₂ sameExceptGas l l := by
  intro l
  induction l with
  | nil => exact List.Forall₂.nil
  | cons a t ih => exact List.Forall₂.cons (sameExceptGas_refl a) ih

theorem forall₂_seg_trans :
    ∀ {l1 l2 l3 : List DiveSample}, List.Forall₂ sameExceptGas l1 l2 →
      List.Forall₂ sameExceptGas l2 l3 → List.Forall₂ sameExceptGas l1 l3 := by
  intro l1 l2 l3 h12
  induction h12 generalizing l3 with
  | nil => intro h23; cases h23; exact List.Forall₂.nil
  | cons hab ht ih =>
    intro h23
    cases h23 with
    | cons hbc ht23 => exact List.Forall₂.cons (sameExceptGas_trans hab hbc) (ih ht23)

theorem setGasFrom_forall₂ (k : Nat) (g : GasChangeEvent) :
    ∀ (ss : List DiveSample) (i : Nat),
      List.Forall₂ sameExceptGas (setGasFrom k g i ss) ss := by
  intro ss
  induction ss with
  | nil => intro i; exact List.Forall₂.nil
  | cons s t ih =>
    intro i
    refine List.Forall₂.cons ?_ (ih (i + 1))
    by_cases h : k ≤ i <;> simp [h, sameExceptGas]

theorem applyGasChange_forall₂ (ss : List DiveSample) (g : GasChangeEvent) :
    List.Forall₂ sameExceptGas (applyGasChange ss g) ss := by
  unfold applyGasChange
  cases h : ss.find? (fun s => decide (s.time ≥ g.time)) with
  | none => exact forall₂_seg_refl ss
  | some target => exact setGasFrom_forall₂ _ g ss 0

theorem applyGasChanges_forall₂ (ss : List DiveSample) (events : List GasChangeEvent) :
    List.Forall₂ sameExceptGas (applyGasChanges ss events) ss := by
  unfold applyGasChanges
  generalize sortGasChanges events = evs
  induction evs generalizing ss with
  | nil => exact forall₂_seg_refl ss
  | cons e es ih =>
    exact forall₂_seg_trans (ih (applyGasChange ss e)) (applyGasChange_forall₂ ss e)

theorem forall₂_seg_get? :
    ∀ {l1 l2 : List DiveSample}, List.Forall₂ sameExceptGas l1 l2 →
      ∀ (j : Nat) (a : DiveSample), l1.get? j = some a →
      ∃ b, l2.get? j = some b ∧ sameExceptGas a b := by
  intro l1 l2 h
  induction h with
  | nil => intro j a hj; simp at hj
  | cons hab ht ih =>
    intro j a hj
    cases j with
    | zero =>
      simp only [List.get?_cons_zero, Option.some.injEq] at hj
      exact ⟨_, rfl, hj ▸ hab⟩
    | succ j =>
      simp only [List.get?_cons_succ] at hj ⊢
      exact ih j a hj

theorem forall₂_seg_map_time :
    ∀ {l1 l2 : List DiveSample}, List.Forall₂ sameExceptGas l1 l2 →
      l1.map (fun s => s.time) = l2.map (fun s => s.time) := by
  intro l1 l2 h
  induction h with
  | nil => rfl
  | cons hab _ ih => simp [ih, hab.1]

theorem chain'_head_le :
    ∀ (t : List DiveSample) (s : DiveSample),
      List.Chain' (fun a b => a.time ≤ b.time) (s :: t) →
      ∀ (j : Nat) (x : DiveSample), t.get? j = some x → s.time ≤ x.time := by
  intro t
  induction t with
  | nil => intro s _ j x hj; simp at hj
  | cons b t' ih =>
    intro s hc j x hj
    rw [List.chain'_cons] at hc
    cases j with
    | zero =>
      simp only [List.get?_cons_zero, Option.some.injEq] at hj
      exact hj ▸ hc.1
    | succ j =>
      simp only [List.get?_cons_succ] at hj
      exact le_trans hc.1 (ih b hc.2 j x hj)

theorem chain'_time_mono :
    ∀ (ss : List DiveSample), List.Chain' (fun a b => a.time ≤ b.time) ss →
      ∀ (i j : Nat) (si sj : DiveSample), i ≤ j →
        ss.get? i = some si → ss.get? j = some sj → si.time ≤ sj.time := by
  intro ss
  induction ss with
  | nil => intro _ i j si sj _ hi _; simp at hi
  | cons s t ih =>
    intro hc i j si sj hij hi hj
    cases i with
    | zero =>
      simp only [List.get?_cons_zero, Option.some.injEq] at hi
      cases j with
      | zero =>
        simp only [List.get?_cons_zero, Option.some.injEq] at hj
        rw [← hi, ← hj]
      | succ j =>
        simp only [List.get?_cons_succ] at hj
        exact hi ▸ chain'_head_le t s hc j sj hj
    | succ i =>
      cases j with
      | zero => omega
      | succ j =>
        simp only [List.get?_cons_succ] at hi hj
        exact ih hc.tail i j si sj (by omega) hi hj

theorem setGasFrom_get? (k : Nat) (g : GasChangeEvent) :
    ∀ (ss : List DiveSample) (n j : Nat),
      (setGasFrom k g n ss).get? j = (ss.get? j).map
        (fun s => if k ≤ n + j then
          { s with fractionO2 := g.fractionO2, fractionHe := g.fractionHe } else s) := by
  intro ss
  induction ss with
  | nil => intro n j; simp [setGasFrom]
  | cons s t ih =>
    intro n j
    cases j with
    | zero => simp [setGasFrom]
    | succ j =>
      simp only [setGasFrom, List.get?_cons_succ]
      rw [ih (n + 1) j, (show n + 1 + j = n + (j + 1) by omega)]

/-- Positional description of a single gas-change injection on a time-sorted
sample list: sample `j` gets the event's fractions exactly when its time is
`≥` the event time, and is untouched otherwise.  (This also discharges the
`list.index` subtlety of lines 285-286: the first *value-equal* sample cannot
sit strictly before the first sample with `time >= target_time`, because a
value-equal sample has the same time.) -/
theorem applyGasChange_get? (g : GasChangeEvent) :
    ∀ (ss : List DiveSample),
      List.Chain' (fun a b => a.time ≤ b.time) ss →
      ∀ (j : Nat) (s : DiveSample), ss.get? j = some s →
      (applyGasChange ss g).get? j =
        some (if g.time ≤ s.time then
          { s with fractionO2 := g.fractionO2, fractionHe := g.fractionHe } else s) := by
  intro ss
  induction ss with
  | nil => intro _ j s hj; simp at hj
  | cons s0 rest ih =>
    intro hc j s hj
    by_cases hp : g.time ≤ s0.time
    · have hfind : (s0 :: rest).find? (fun x => decide (x.time ≥ g.time)) = some s0 :=
        List.find?_cons_of_pos _ (by simpa using hp)
      have hidx : (s0 :: rest).findIdx (fun x => x == s0) = 0 := by
        rw [List.findIdx_cons]
        simp
      rw [applyGasChange, hfind]
      simp only [hidx]
      rw [setGasFrom_get? 0 g (s0 :: rest) 0 j, hj]
      have hts : g.time ≤ s.time := by
        cases j with
        | zero =>
          simp only [List.get?_cons_zero, Option.some.injEq] at hj
          exact hj ▸ hp
        | succ j =>
          simp only [List.get?_cons_succ] at hj
          exact le_trans hp (chain'_head_le rest s0 hc j s hj)
      simp [hts]
    · have hfind : (s0 :: rest).find? (fun x => decide (x.time ≥ g.time)) =
          rest.find? (fun x => decide (x.time ≥ g.time)) :=
        List.find?_cons_of_neg _ (by simpa using hp)
      cases hfr : rest.find? (fun x => decide (x.time ≥ g.time)) with
      | none =>
        rw [applyGasChange, hfind, hfr]
        rw [hj]
        cases j with
        | zero =>
          simp only [List.get?_cons_zero, Option.some.injEq] at hj
          simp [← hj, hp]
        | succ j =>
          simp only [List.get?_cons_succ] at hj
          have hmem : s ∈ rest := List.get?_mem hj
          have := List.find?_eq_none.mp hfr s hmem
          simp only [decide_eq_true_eq, ge_iff_le] at this
          simp [this]
      | some target =>
        have hpt : g.time ≤ target.time := by
          have := List.find?_some hfr
          simpa using this
        have hne : (s0 == target) = false := by
          rw [beq_eq_false_iff_ne]
          intro h
          exact hp (h ▸ hpt)
        have hidx : (s0 :: rest).findIdx (fun x => x == target) =
            rest.findIdx (fun x => x == target) + 1 := by
          rw [List.findIdx_cons, hne]
          rfl
        rw [applyGasChange, hfind, hfr]
        simp only [hidx]
        rw [setGasFrom_get?]
        cases j with
        | zero =>
          simp only [List.get?_cons_zero, Option.some.injEq] at hj
          simp [← hj, hp, Nat.add_zero]
        | succ j =>
          simp only [List.get?_cons_succ] at hj ⊢
          rw [hj]
          have ihj := ih hc.tail j s hj
          rw [applyGasChange, hfr] at ihj
          rw [setGasFrom_get?, hj] at ihj
          simp only [Option.map_some', Option.some.injEq] at ihj ⊢
          rw [← ihj]
          have hcond : (rest.findIdx (fun x => x == target) + 1 ≤ 0 + (j + 1)) =
              (rest.findIdx (fun x => x == target) ≤ 0 + j) := by
            simp only [eq_iff_iff]
            omega
          simp only [hcond]

theorem applyGasChange_chain' (ss : List DiveSample) (g : GasChangeEvent)
    (h : List.Chain' (fun a b => a.time ≤ b.time) ss) :
    List.Chain' (fun a b => a.time ≤ b.time) (applyGasChange ss g) := by
  have hm := forall₂_seg_map_time (applyGasChange_forall₂ ss g)
  have h1 : List.Chain' (fun a b : Int => a ≤ b) (ss.map (fun s => s.time)) :=
    (List.chain'_map _).mpr h
  rw [← hm] at h1
  exact (List.chain'_map _).mp h1

theorem insertByTime_chain' (e : GasChangeEvent) :
    ∀ (l : List GasChangeEvent), List.Chain' (fun a b => a.time ≤ b.time) l →
      List.Chain' (fun a b => a.time ≤ b.time) (insertByTime e l) := by
  intro l
  induction l with
  | nil => intro _; simp [insertByTime]
  | cons x xs ih =>
    intro hc
    rw [insertByTime]
    by_cases he : e.time < x.time
    · rw [if_pos he]
      exact List.chain'_cons.mpr ⟨le_of_lt he, hc⟩
    · rw [if_neg he]
      cases xs with
      | nil =>
        simp only [insertByTime, List.chain'_cons, List.chain'_singleton, and_true]
        omega
      | cons y ys =>
        rw [List.chain'_cons] at hc
        rw [insertByTime]
        by_cases hey : e.time < y.time
        · rw [if_pos hey]
          exact List.chain'_cons.mpr ⟨by omega,
            List.chain'_cons.mpr ⟨le_of_lt hey, hc.2⟩⟩
        · rw [if_neg hey]
          have hrec := ih hc.2
          rw [insertByTime, if_neg hey] at hrec
          exact List.chain'_cons.mpr ⟨hc.1, hrec⟩

/-- A minimal sample for concrete witnesses. -/
def mkSample (t : Int) : DiveSample := { time := t, depth := 10 }

theorem sortGasChanges_chain' (l : List GasChangeEvent) :
    List.Chain' (fun a b => a.time ≤ b.time) (sortGasChanges l) := by
  unfold sortGasChanges
  have h : ∀ (acc : List GasChangeEvent), List.Chain' (fun a b => a.time ≤ b.time) acc →
      List.Chain' (fun a b => a.time ≤ b.time)
        (l.foldl (fun acc e => insertByTime e acc) acc) := by
    induction l with
    | nil => intro acc hacc; exact hacc
    | cons e es ih => intro acc hacc; exact ih _ (insertByTime_chain' e acc hacc)
  exact h [] (by simp)

/-!
## Claim theorems
-/

/-- **C3.** In the Subsurface parser, gas-change events are applied in
ascending time order (the sort emits a time-sorted list); a single event at
time `t` sets `fractionO2`/`fractionHe` on the first sample with `time ≥ t`
and on every later sample, overwriting existing values (positionally: sample
`j` is overwritten iff its time is `≥ t`, anything earlier is untouched); and
for the event pair `[(t=300, O2=0.32), (t=900, O2=0.21)]` every sample with
`time < 300` keeps its pre-event gas, every sample with `300 ≤ time < 900`
carries `O2 = 0.32`, and every sample with `time ≥ 900` carries `O2 = 0.21`
(the later event wins on the overlapping suffix). -/
theorem gas_change_forward_fill :
    (∀ (events : List GasChangeEvent),
      List.Chain' (fun a b => a.time ≤ b.time) (sortGasChanges events)) ∧
    (∀ (ss : List DiveSample) (g : GasChangeEvent),
      List.Chain' (fun a b => a.time ≤ b.time) ss →
      ∀ (j : Nat) (s : DiveSample), ss.get? j = some s →
      (applyGasChange ss g).get? j =
        some (if g.time ≤ s.time then
          { s with fractionO2 := g.fractionO2, fractionHe := g.fractionHe } else s)) ∧
    (∀ (ss : List DiveSample),
      List.Chain' (fun a b => a.time ≤ b.time) ss →
      ∀ (j : Nat) (s : DiveSample), ss.get? j = some s →
      (applyGasChanges ss
          [⟨300, some (32 / 100), none⟩, ⟨900, some (21 / 100), none⟩]).get? j =
        some (if 900 ≤ s.time then
            { s with fractionO2 := some (21 / 100), fractionHe := none }
          else if 300 ≤ s.time then
            { s with fractionO2 := some (32 / 100), fractionHe := none }
          else s)) := by
  refine ⟨sortGasChanges_chain', fun ss g => applyGasChange_get? g ss, ?_⟩
  intro ss hc j s hj
  have hsort : sortGasChanges
      [(⟨300, some (32 / 100), none⟩ : GasChangeEvent), ⟨900, some (21 / 100), none⟩] =
      [⟨300, some (32 / 100), none⟩, ⟨900, some (21 / 100), none⟩] := by
    simp only [sortGasChanges, List.foldl_cons, List.foldl_nil, insertByTime]
    norm_num
  have hunfold : applyGasChanges ss
      [(⟨300, some (32 / 100), none⟩ : GasChangeEvent), ⟨900, some (21 / 100), none⟩] =
      applyGasChange (applyGasChange ss ⟨300, some (32 / 100), none⟩)
        ⟨900, some (21 / 100), none⟩ := by
    unfold applyGasChanges
    rw [hsort]
    rfl
  rw [hunfold]
  have h1 := applyGasChange_get? ⟨300, some (32 / 100), none⟩ ss hc j s hj
  have h2 := applyGasChange_get? ⟨900, some (21 / 100), none⟩
    (applyGasChange ss ⟨300, some (32 / 100), none⟩)
    (applyGasChange_chain' ss _ hc) j _ h1
  rw [h2]
  by_cases h3 : (300 : Int) ≤ s.time
  · by_cases h9 : (900 : Int) ≤ s.time
    · simp [h3, h9]
    · simp [h3, h9]
  · have h9 : ¬ (900 : Int) ≤ s.time := by omega
    simp [h3, h9]

/-- Witness for C3: concrete samples at times 0, 600, 1200 with the two
events; the middle sample carries the first event's gas, the last carries
the second's, the first is untouched. -/
theorem gas_change_forward_fill_witness :
    (applyGasChanges [mkSample 0, mkSample 600, mkSample 1200]
        [⟨300, some (32 / 100), none⟩, ⟨900, some (21 / 100), none⟩]).get? 1 =
      some { mkSample 600 with fractionO2 := some (32 / 100), fractionHe := none } ∧
    (applyGasChanges [mkSample 0, mkSample 600, mkSample 1200]
        [⟨300, some (32 / 100), none⟩, ⟨900, some (21 / 100), none⟩]).get? 2 =
      some { mkSample 1200 with fractionO2 := some (21 / 100), fractionHe := none } ∧
    (applyGasChanges [mkSample 0, mkSample 600, mkSample 1200]
        [⟨300, some (32 / 100), none⟩, ⟨900, some (21 / 100), none⟩]).get? 0 =
      some (mkSample 0) := by
  have hchain : List.Chain' (fun a b => a.time ≤ b.time)
      [mkSample 0, mkSample 600, mkSample 1200] := by
    refine List.chain'_cons.mpr ⟨?_, List.chain'_cons.mpr ⟨?_, List.chain'_singleton _⟩⟩ <;>
      norm_num [mkSample]
  refine ⟨?_, ?_, ?_⟩
  · have h := gas_change_forward_fill.2.2 [mkSample 0, mkSample 600, mkSample 1200]
      hchain 1 (mkSample 600) rfl
    rw [h]
    norm_num [mkSample]
  · have h := gas_change_forward_fill.2.2 [mkSample 0, mkSample 600, mkSample 1200]
      hchain 2 (mkSample 1200) rfl
    rw [h]
    norm_num [mkSample]
  · have h := gas_change_forward_fill.2.2 [mkSample 0, mkSample 600, mkSample 1200]
      hchain 0 (mkSample 0) rfl
    rw [h]
    norm_num [mkSample]


/-- First-match characterization of `List.find?`: the returned element sits at
some position, satisfies the predicate, and everything before it fails it. -/
theorem find?_first {α : Type} (p : α → Bool) :
    ∀ (l : List α) (a : α), l.find? p = some a →
      ∃ i, l.get? i = some a ∧ p a = true ∧
        ∀ (j : Nat) (b : α), j < i → l.get? j = some b → p b = false := by
  intro l
  induction l with
  | nil => intro a h; simp at h
  | cons x xs ih =>
    intro a h
    by_cases hx : p x
    · rw [List.find?_cons_of_pos _ hx] at h
      refine ⟨0, ?_, ?_, ?_⟩
      · simpa using h
      · cases h; exact hx
      · intro j b hj; omega
    · rw [List.find?_cons_of_neg _ hx] at h
      obtain ⟨i, hi, hpa, hbefore⟩ := ih a h
      refine ⟨i + 1, by simpa using hi, hpa, ?_⟩
      intro j b hj hb
      cases j with
      | zero =>
        simp only [List.get?_cons_zero, Option.some.injEq] at hb
        rw [← hb]
        simpa using hx
      | succ j =>
        simp only [List.get?_cons_succ] at hb
        exact hbefore j b (by omega) hb

/-- **C4 counterexample.** The claim's middle scenario is impossible as
stated: with a video time equal to dive start **plus** 3 hours (here
`diveStart = 0`, `diveEnd = 1800`, `videoTime = 10800`), offsets
0, +1, −1, +2, −2 indeed all fail, but then −3 maps the video back exactly
onto the dive start, and since +3 also fails (it moves the video *further*
away), the search returns −3, never 3. -/
theorem detect_timezone_offset_plus3_counterexample :
    (∀ h ∈ [(0 : Int), 1, -1, 2, -2],
      ¬ ((0 : Int) ≤ 10800 + 3600 * h ∧ 10800 + 3600 * h ≤ 1800)) ∧
    detect_timezone_offset 10800 0 1800 = some (-3) ∧
    detect_timezone_offset 10800 0 1800 ≠ some 3 := by decide

/-- **C4 (amended).** `detect_timezone_offset` tests integer hour offsets in
exactly the interleaved order 0, +1, −1, …, +10, −10 and returns the first
offset `h` with `videoTime + h` hours inside `[diveStart, diveEnd]` (both
bounds inclusive); a video time exactly equal to the dive start gives 0; a
video time equal to dive start **minus** 3 hours gives 3 (found before −3 is
ever tested); and if no offset in the ±10 range works the result is `none`,
never a silent 0.  (Assumes `diveStart ≤ diveEnd` where needed.) -/
theorem detect_timezone_offset_behavior :
    (generate_timezone_offsets =
      [0, 1, -1, 2, -2, 3, -3, 4, -4, 5, -5, 6, -6, 7, -7, 8, -8, 9, -9, 10, -10]) ∧
    (∀ (v s e h : Int), detect_timezone_offset v s e = some h →
      ∃ i, generate_timezone_offsets.get? i = some h ∧
        (s ≤ v + 3600 * h ∧ v + 3600 * h ≤ e) ∧
        ∀ (j : Nat) (h' : Int), j < i → generate_timezone_offsets.get? j = some h' →
          ¬ (s ≤ v + 3600 * h' ∧ v + 3600 * h' ≤ e)) ∧
    (∀ (v s e : Int),
      (∀ h ∈ generate_timezone_offsets, ¬ (s ≤ v + 3600 * h ∧ v + 3600 * h ≤ e)) →
      detect_timezone_offset v s e = none) ∧
    (∀ (s e : Int), s ≤ e → detect_timezone_offset s s e = some 0) ∧
    (∀ (s e : Int), s ≤ e → detect_timezone_offset (s - 3 * 3600) s e = some 3) := by
  have hgen : generate_timezone_offsets =
      [0, 1, -1, 2, -2, 3, -3, 4, -4, 5, -5, 6, -6, 7, -7, 8, -8, 9, -9, 10, -10] := by
    decide
  refine ⟨hgen, ?_, ?_, ?_, ?_⟩
  · intro v s e h hdet
    obtain ⟨i, hi, hp, hbefore⟩ := find?_first _ _ _ hdet
    refine ⟨i, hi, by simpa using hp, ?_⟩
    intro j h' hj hj'
    have := hbefore j h' hj hj'
    simpa using this
  · intro v s e hall
    unfold detect_timezone_offset
    rw [List.find?_eq_none]
    intro h hmem
    simpa using hall h hmem
  · intro s e hse
    unfold detect_timezone_offset
    rw [hgen]
    rw [List.find?_cons_of_pos _ (by simp; omega)]
  · intro s e hse
    unfold detect_timezone_offset
    rw [hgen]
    rw [List.find?_cons_of_neg _ (by simp)]
    rw [List.find?_cons_of_neg _ (by simp; omega)]
    rw [List.find?_cons_of_neg _ (by simp; omega)]
    rw [List.find?_cons_of_neg _ (by simp; omega)]
    rw [List.find?_cons_of_neg _ (by simp; omega)]
    rw [List.find?_cons_of_pos _ (by simp; omega)]

/-- Witness for the amended C4 theorem: all hypothesis-carrying parts applied
at concrete instants. -/
theorem detect_timezone_offset_behavior_witness :
    detect_timezone_offset 1000 1000 4600 = some 0 ∧
    detect_timezone_offset (1000 - 3 * 3600) 1000 4600 = some 3 ∧
    detect_timezone_offset 500000 0 1800 = none := by
  refine ⟨detect_timezone_offset_behavior.2.2.2.1 1000 4600 (by decide),
    detect_timezone_offset_behavior.2.2.2.2 1000 4600 (by decide),
    detect_timezone_offset_behavior.2.2.1 500000 0 1800 (by decide)⟩

/-- **C5.** Whenever the requested start is at or beyond the dive duration
(the last sample's time), `extract_dive_segment` fails with the
out-of-bounds error carrying both requested bounds and the dive duration —
it never returns a silently empty result. -/
theorem segment_out_of_bounds :
    ∀ (dd : DiveData) (s e : Int) (last : DiveSample),
      dd.samples.getLast? = some last → last.time ≤ s →
      extract_dive_segment dd s e =
        .error (.SegmentOutOfBoundsError s e last.time) := by
  intro dd s e last hlast hge
  simp only [extract_dive_segment, hlast, ge_iff_le]
  rw [if_pos hge]

/-- Witness for C5: extracting `[5000, 5100]` from a dive whose last sample
time is 1200 raises the out-of-bounds error with both bounds and 1200. -/
theorem segment_out_of_bounds_witness :
    extract_dive_segment ⟨[mkSample 0, mkSample 600, mkSample 1200], 0, 1200⟩ 5000 5100 =
      .error (.SegmentOutOfBoundsError 5000 5100 1200) :=
  segment_out_of_bounds ⟨[mkSample 0, mkSample 600, mkSample 1200], 0, 1200⟩
    5000 5100 (mkSample 1200) rfl (by decide)

/-- **C10.** On a `DiveData` with an empty sample list, `extract_dive_segment`
immediately raises the empty-segment error reporting a sample count of 0, for
any requested bounds; it does not reach the duration computation or the
out-of-bounds check. -/
theorem empty_dive_empty_segment_error :
    ∀ (st et s e : Int),
      extract_dive_segment ⟨[], st, et⟩ s e = .error (.EmptySegmentError s e 0) := by
  intro st et s e
  rfl

/-- The selection described by the spec/claim for C2, phrased over the
*clamped* bounds: the single sample immediately preceding the first sample
with `time ≥ segStart` (if any), then every sample with
`segStart ≤ time ≤ segEnd`, then the first sample with `time > segEnd`
(if any), concatenated in that order. -/
def segmentSelectionSpec (samples : List DiveSample) (segStart segEnd : Int) :
    List DiveSample :=
  (match samples.findIdx? (fun s => decide (s.time ≥ segStart)) with
   | some i => if i > 0 then (samples.get? (i - 1)).toList else []
   | none => []) ++
  samples.filter (fun s => decide (segStart ≤ s.time ∧ s.time ≤ segEnd)) ++
  (samples.find? (fun s => decide (s.time > segEnd))).toList

/-- **C2.** For a non-empty dive whose clamped segment start
(`max segmentStart 0`) lies strictly below the dive duration,
`extract_dive_segment` succeeds and returns exactly the claim's selection,
evaluated at the clamped bounds (start clamped to 0, end clamped to the dive
duration); in particular `[100, 200]` against samples at times
`[0, 50, 100, 150, 200, 250]` yields the samples at times
`[50, 100, 150, 200, 250]`. -/
theorem extract_dive_segment_selection :
    (∀ (dd : DiveData) (s e : Int) (hne : dd.samples ≠ []),
      max s 0 < (dd.samples.getLast hne).time →
      extract_dive_segment dd s e =
        .ok (segmentSelectionSpec dd.samples (max s 0)
          (min e (dd.samples.getLast hne).time))) ∧
    extract_dive_segment ⟨[mkSample 0, mkSample 50, mkSample 100, mkSample 150,
        mkSample 200, mkSample 250], 0, 250⟩ 100 200 =
      .ok [mkSample 50, mkSample 100, mkSample 150, mkSample 200, mkSample 250] := by
  constructor
  · intro dd s e hne hlt
    set last := dd.samples.getLast hne with hlastdef
    have hlast : dd.samples.getLast? = some last := List.getLast?_eq_getLast _ hne
    have hs_lt : s < last.time := lt_of_le_of_lt (le_max_left s 0) hlt
    have hend : (if e > last.time then last.time else e) = min e last.time := by
      rcases le_or_lt e last.time with h | h
      · rw [if_neg (not_lt.mpr h), min_eq_left h]
      · rw [if_pos h, min_eq_right (le_of_lt h)]
    have hstart : (if s < 0 then 0 else s) = max s 0 := by
      rcases lt_or_le s 0 with h | h
      · rw [if_pos h, max_eq_right (le_of_lt h)]
      · rw [if_neg (not_lt.mpr h), max_eq_left h]
    simp only [extract_dive_segment, hlast, ge_iff_le]
    rw [if_neg (not_le.mpr hs_lt), hend, hstart]
    have hne' : (segmentSelectionSpec dd.samples (max s 0) (min e last.time)) ≠ [] := by
      unfold segmentSelectionSpec
      cases hafter : dd.samples.find? (fun x => decide (x.time > min e last.time)) with
      | some x => simp
      | none =>
        have hlastle : last.time ≤ min e last.time := by
          have hmem : last ∈ dd.samples := List.getLast_mem hne
          have := List.find?_eq_none.mp hafter last hmem
          simpa using this
        have hmemf : last ∈ dd.samples.filter
            (fun x => decide (max s 0 ≤ x.time ∧ x.time ≤ min e last.time)) := by
          rw [List.mem_filter]
          exact ⟨List.getLast_mem hne,
            by simp only [decide_eq_true_eq]; exact ⟨le_of_lt hlt, hlastle⟩⟩
        intro hcon
        rcases List.append_eq_nil.mp hcon with ⟨h1, h2⟩
        rcases List.append_eq_nil.mp h1 with ⟨_, hfil⟩
        rw [hfil] at hmemf
        simp at hmemf
    rw [if_neg (by simpa [segmentSelectionSpec] using hne')]
    rfl
  · decide

/-- **C7 counterexample.** Neither parser checks or enforces time ordering: a
Subsurface log whose two `<sample>` records carry times 100 then 50 parses
successfully, and the canonical sequence has `sample[1].time < sample[0].time`. -/
theorem monotonic_time_counterexample :
    (subsurfaceParse 0 [{ time := 100 }, { time := 50 }] []).map (fun s => s.time) =
      [100, 50] ∧
    ¬ List.Chain' (fun a b => a.time ≤ b.time)
      (subsurfaceParse 0 [{ time := 100 }, { time := 50 }] []) := by
  have hmap : (subsurfaceParse 0 [{ time := 100 }, { time := 50 }] []).map
      (fun s => s.time) = [100, 50] := rfl
  refine ⟨hmap, ?_⟩
  intro h
  have hm := (List.chain'_map (fun s : DiveSample => s.time)).mpr h
  rw [hmap, List.chain'_cons] at hm
  omega

/-- **C7 (amended).** Each parser copies the source record times into the
canonical samples in document order (Subsurface: the `time` attribute;
Shearwater: `currentTime // 1000`), so the canonical sequence has
non-decreasing time exactly when the source record times are non-decreasing —
which both parsers assume and do not check. -/
theorem parser_time_order :
    (∀ (nCyl : Nat) (records : List SubsurfaceRecord) (events : List GasChangeEvent),
      (subsurfaceParse nCyl records events).map (fun s => s.time) =
        records.map (fun r => r.time)) ∧
    (∀ (records : List ShearwaterRecord),
      (shearwaterSamples records).map (fun s => s.time) =
        records.map (fun r => r.currentTime_ms.fdiv 1000)) ∧
    (∀ (nCyl : Nat) (records : List SubsurfaceRecord) (events : List GasChangeEvent),
      List.Chain' (fun a b : Int => a ≤ b) (records.map (fun r => r.time)) →
      List.Chain' (fun a b => a.time ≤ b.time) (subsurfaceParse nCyl records events)) ∧
    (∀ (records : List ShearwaterRecord),
      List.Chain' (fun a b : Int => a ≤ b)
        (records.map (fun r => r.currentTime_ms.fdiv 1000)) →
      List.Chain' (fun a b => a.time ≤ b.time) (shearwaterSamples records)) := by
  have hsub : ∀ (nCyl : Nat) (records : List SubsurfaceRecord) (events : List GasChangeEvent),
      (subsurfaceParse nCyl records events).map (fun s => s.time) =
        records.map (fun r => r.time) := by
    intro nCyl records events
    have h1 := forall₂_seg_map_time
      (applyGasChanges_forall₂ (subsurfaceSamples nCyl records) events)
    rw [subsurfaceParse, h1]
    exact buildSamples_map subStep (fun s => s.time) (fun r => r.time)
      (fun lv r => rfl) (subSeed nCyl) records
  have hshear : ∀ (records : List ShearwaterRecord),
      (shearwaterSamples records).map (fun s => s.time) =
        records.map (fun r => r.currentTime_ms.fdiv 1000) :=
    fun records => buildSamples_map shearStep (fun s => s.time)
      (fun r => r.currentTime_ms.fdiv 1000) (fun lv r => rfl) shearSeed records
  refine ⟨hsub, hshear, ?_, ?_⟩
  · intro nCyl records events hc
    have : List.Chain' (fun a b : Int => a ≤ b)
        ((subsurfaceParse nCyl records events).map (fun s => s.time)) := by
      rw [hsub]; exact hc
    exact (List.chain'_map _).mp this
  · intro records hc
    have : List.Chain' (fun a b : Int => a ≤ b)
        ((shearwaterSamples records).map (fun s => s.time)) := by
      rw [hshear]; exact hc
    exact (List.chain'_map _).mp this

/-- Witness for the amended C7 theorem: time-ordered source records give
time-ordered canonical samples, for both parsers. -/
theorem parser_time_order_witness :
    List.Chain' (fun a b => a.time ≤ b.time)
      (subsurfaceParse 0 [{ time := 50 }, { time := 100 }] []) ∧
    List.Chain' (fun a b => a.time ≤ b.time)
      (shearwaterSamples [{ currentTime_ms := 10000 }, { currentTime_ms := 20000 }]) := by
  constructor
  · refine parser_time_order.2.2.1 0 [{ time := 50 }, { time := 100 }] [] ?_
    refine List.chain'_cons.mpr ⟨?_, List.chain'_singleton _⟩
    norm_num
  · refine parser_time_order.2.2.2 [{ currentTime_ms := 10000 }, { currentTime_ms := 20000 }] ?_
    refine List.chain'_cons.mpr ⟨?_, List.chain'_singleton _⟩
    decide

/-- Witness for C2's universally quantified part: a window starting before the
dive and ending past it is clamped on both sides and returns every sample. -/
theorem extract_dive_segment_selection_witness :
    extract_dive_segment ⟨[mkSample 0, mkSample 50, mkSample 100, mkSample 150,
        mkSample 200, mkSample 250], 0, 250⟩ (-50) 9999 =
      .ok [mkSample 0, mkSample 50, mkSample 100, mkSample 150,
        mkSample 200, mkSample 250] := by
  have h := extract_dive_segment_selection.1
    ⟨[mkSample 0, mkSample 50, mkSample 100, mkSample 150, mkSample 200, mkSample 250],
      0, 250⟩ (-50) 9999 (by decide) (by decide)
  rw [h]
  decide

theorem getD_replicate_none :
    ∀ (n i : Nat), (List.replicate n (none : Option ℚ)).getD i none = none := by
  intro n
  induction n with
  | zero => intro i; rfl
  | succ n ih =>
    intro i
    cases i with
    | zero => rfl
    | succ i =>
      rw [List.replicate_succ]
      simp [ih i]

theorem getD_three_none :
    ∀ (i : Nat), ([none, none, none] : List (Option ℚ)).getD i none = none := by
  intro i
  match i with
  | 0 => rfl
  | 1 => rfl
  | 2 => rfl
  | n + 3 => rfl

/-- Carry-forward instantiation for a scalar field of the Subsurface loop. -/
theorem subsurface_scalar_field {α : Type} (get : DiveSample → α)
    (rget : SubsurfaceRecord → Option α)
    (hstep : ∀ lv r, get (subStep lv r) = (rget r).getD (get lv)) :
    ∀ (nCyl : Nat) (records : List SubsurfaceRecord) (j : Nat) (x : DiveSample),
      (subsurfaceSamples nCyl records).get? j = some x →
      get x = lastSetValue rget (get (subSeed nCyl)) (records.take (j + 1)) :=
  fun nCyl records j x hx =>
    buildSamples_field subStep (fun _ => True) get rget (fun _ _ _ => trivial)
      (fun lv r _ => hstep lv r) records (subSeed nCyl) trivial j x hx

/-- Carry-forward instantiation for a scalar field of the Shearwater loop. -/
theorem shear_scalar_field {α : Type} (get : DiveSample → α)
    (rget : ShearwaterRecord → Option α)
    (hstep : ∀ lv r, get (shearStep lv r) = (rget r).getD (get lv)) :
    ∀ (records : List ShearwaterRecord) (j : Nat) (x : DiveSample),
      (shearwaterSamples records).get? j = some x →
      get x = lastSetValue rget (get shearSeed) (records.take (j + 1)) :=
  fun records j x hx =>
    buildSamples_field shearStep (fun _ => True) get rget (fun _ _ _ => trivial)
      (fun lv r _ => hstep lv r) records shearSeed trivial j x hx

/-- Carry-forward for tank-pressure slot `i` of the Subsurface loop. -/
theorem subsurface_pressure_slot (nCyl i : Nat) (hi : i < nCyl) :
    ∀ (records : List SubsurfaceRecord) (j : Nat) (x : DiveSample),
      (subsurfaceSamples nCyl records).get? j = some x →
      x.pressure.getD i none =
        lastSetValue (fun r => (r.pressure i).map some) none (records.take (j + 1)) := by
  intro records j x hx
  have h := buildSamples_field subStep (fun s => s.pressure.length = nCyl)
    (fun s => s.pressure.getD i none) (fun r => (r.pressure i).map some)
    (fun lv r hlv => by
      simp only [subStep]
      rw [patchSlots_length]
      exact hlv)
    (fun lv r hlv => by
      simp only [subStep]
      rw [patchSlots_getD _ _ _ _ (by rw [hlv]; exact hi), Nat.zero_add]
      cases hr : r.pressure i <;> simp [hr])
    records (subSeed nCyl) (by simp [subSeed]) j x hx
  exact h.trans (congrArg
    (fun d => lastSetValue (fun r => (r.pressure i).map some) d (List.take (j + 1) records))
    (getD_replicate_none nCyl i))

/-- Carry-forward for PPO2-sensor slot `i` of the Subsurface loop. -/
theorem subsurface_sensor_slot (nCyl i : Nat) (hi : i < 3) :
    ∀ (records : List SubsurfaceRecord) (j : Nat) (x : DiveSample),
      (subsurfaceSamples nCyl records).get? j = some x →
      x.ppo2_sensors.getD i none =
        lastSetValue (fun r => (r.sensor i).map some) none (records.take (j + 1)) := by
  intro records j x hx
  have h := buildSamples_field subStep (fun s => s.ppo2_sensors.length = 3)
    (fun s => s.ppo2_sensors.getD i none) (fun r => (r.sensor i).map some)
    (fun lv r hlv => by
      simp only [subStep]
      rw [patchSlots_length]
      exact hlv)
    (fun lv r hlv => by
      simp only [subStep]
      rw [patchSlots_getD _ _ _ _ (by rw [hlv]; exact hi), Nat.zero_add]
      cases hr : r.sensor i <;> simp [hr])
    records (subSeed nCyl) (by simp [subSeed]) j x hx
  exact h.trans (congrArg
    (fun d => lastSetValue (fun r => (r.sensor i).map some) d (List.take (j + 1) records))
    (getD_three_none i))

/-- Carry-forward (with the PSI→bar conversion and the "present but
unparseable resets the slot" rule) for tank slot `i` of the Shearwater loop. -/
theorem shear_pressure_slot (i : Nat) (hi : i < 4) :
    ∀ (records : List ShearwaterRecord) (j : Nat) (x : DiveSample),
      (shearwaterSamples records).get? j = some x →
      x.pressure.getD i none =
        lastSetValue (fun r => (r.tankPressurePSI i).map
          (fun o => o.map (fun psi => psi * psiToBar))) none (records.take (j + 1)) := by
  intro records j x hx
  have h := buildSamples_field shearStep (fun s => s.pressure.length = 4)
    (fun s => s.pressure.getD i none)
    (fun r => (r.tankPressurePSI i).map (fun o => o.map (fun psi => psi * psiToBar)))
    (fun lv r hlv => by
      simp only [shearStep]
      rw [patchSlots_length]
      exact hlv)
    (fun lv r hlv => by
      simp only [shearStep]
      rw [patchSlots_getD _ _ _ _ (by rw [hlv]; exact hi), Nat.zero_add]
      cases hr : r.tankPressurePSI i with
      | none => simp [hr]
      | some o => cases o <;> simp [hr])
    records shearSeed (by simp [shearSeed]) j x hx
  exact h.trans (congrArg
    (fun d => lastSetValue (fun r => (r.tankPressurePSI i).map
      (fun o => o.map (fun psi => psi * psiToBar))) d (List.take (j + 1) records))
    (getD_replicate_none 4 i))

/-- **C1 counterexample.** In the Subsurface parser, `fractionO2`/`fractionHe`
are *never* set by sample records (samples have no gas-fraction attributes;
the record-side getter is necessarily constantly `none`), yet a `gaschange`
event overwrites them: parsing one record (time 0) together with one
gas-change event (`t=0`, 100% O2) yields a sample whose `fractionO2` is
`some 1`, while the claim's record-only carry-forward rule predicts the seed
default `none`. -/
theorem carry_forward_counterexample :
    (subsurfaceParse 0 [{ time := 0, depth := some 5 }] [⟨0, some 1, none⟩]).map
        (fun s => s.fractionO2) = [some 1] ∧
    lastSetValue (fun (_ : SubsurfaceRecord) => (none : Option (Option ℚ)))
        (subSeed 0).fractionO2 ([{ time := 0, depth := some 5 }].take 1) = none ∧
    (some (1 : ℚ) ≠ (none : Option ℚ)) := by
  refine ⟨rfl, rfl, by simp⟩

/-- **C1 (amended).** Every `DiveSample` field other than `time` and `depth` —
and other than `fractionO2`/`fractionHe` in the Subsurface parser, which are
set by gas-change events (forward-fill, see `gas_change_forward_fill`) rather
than by sample records — equals the value most recently set by a source
record at or before record `j`, or the parser's seed default (`ndl = 99`,
`stop_depth = stop_time = 0`, empty/`none` pressure and sensor slots, `cns=0`
in Subsurface) if no earlier record set it; in particular, once set by a
record the value persists unchanged into every later sample until
overwritten.  In the Subsurface parser this holds for the *final* output,
after gas-change injection, since injection touches only the gas fractions;
and when the log has no gas-change events, the gas fractions also stay at
their `none` default.  In the Shearwater parser it holds for every field,
including the gas fractions (set per record there) and the tank slots (where
a present-but-unparseable reading *sets* the slot to `none`, and values are
converted from PSI to bar). -/
theorem carry_forward :
    (∀ (nCyl : Nat) (records : List SubsurfaceRecord) (events : List GasChangeEvent)
        (j : Nat) (x : DiveSample),
      (subsurfaceParse nCyl records events).get? j = some x →
      x.ndl = lastSetValue (fun r => r.ndl.map some) (some 99) (records.take (j + 1)) ∧
      x.tts = lastSetValue (fun r => r.tts.map some) none (records.take (j + 1)) ∧
      x.temperature = lastSetValue (fun r => r.temp.map some) none (records.take (j + 1)) ∧
      x.stop_depth =
        lastSetValue (fun r => r.stopdepth.map some) (some 0) (records.take (j + 1)) ∧
      x.stop_time =
        lastSetValue (fun r => r.stoptime.map some) (some 0) (records.take (j + 1)) ∧
      x.ppo2 =
        lastSetValue (fun r => r.dc_supplied_ppo2.map some) none (records.take (j + 1)) ∧
      x.cns = some 0 ∧ x.sac = none ∧ x.gtr = none ∧
      (∀ i, i < 3 → x.ppo2_sensors.getD i none =
        lastSetValue (fun r => (r.sensor i).map some) none (records.take (j + 1))) ∧
      (∀ i, i < nCyl → x.pressure.getD i none =
        lastSetValue (fun r => (r.pressure i).map some) none (records.take (j + 1)))) ∧
    (∀ (nCyl : Nat) (records : List SubsurfaceRecord) (j : Nat) (x : DiveSample),
      (subsurfaceParse nCyl records []).get? j = some x →
      x.fractionO2 = none ∧ x.fractionHe = none) ∧
    (∀ (records : List ShearwaterRecord) (j : Nat) (x : DiveSample),
      (shearwaterSamples records).get? j = some x →
      x.ndl = lastSetValue (fun r => r.currentNdl.map some) (some 99) (records.take (j + 1)) ∧
      x.tts = lastSetValue (fun r => r.ttsMins.map some) none (records.take (j + 1)) ∧
      x.temperature =
        lastSetValue (fun r => r.waterTemp.map some) none (records.take (j + 1)) ∧
      x.stop_depth =
        lastSetValue (fun r => r.firstStopDepth.map some) (some 0) (records.take (j + 1)) ∧
      x.stop_time =
        lastSetValue (fun r => r.firstStopTime.map some) (some 0) (records.take (j + 1)) ∧
      x.fractionO2 =
        lastSetValue (fun r => r.fractionO2.map some) none (records.take (j + 1)) ∧
      x.fractionHe =
        lastSetValue (fun r => r.fractionHe.map some) none (records.take (j + 1)) ∧
      x.ppo2 = lastSetValue (fun r => r.averagePPO2.map some) none (records.take (j + 1)) ∧
      x.sac = lastSetValue (fun r => r.sac.map some) none (records.take (j + 1)) ∧
      x.gtr = lastSetValue (fun r => r.gasTime.map some) none (records.take (j + 1)) ∧
      x.cns = none ∧ x.ppo2_sensors = [none, none, none] ∧
      (∀ i, i < 4 → x.pressure.getD i none =
        lastSetValue (fun r => (r.tankPressurePSI i).map
          (fun o => o.map (fun psi => psi * psiToBar))) none (records.take (j + 1)))) := by
  refine ⟨?_, ?_, ?_⟩
  · intro nCyl records events j x hx
    obtain ⟨b, hb, hsame⟩ :=
      forall₂_seg_get? (applyGasChanges_forall₂ (subsurfaceSamples nCyl records) events) j x hx
    obtain ⟨ht, hd, hndl, htts, hsd, hst, htemp, hpress, hsac, hgtr, hppo2, hcns, hsens⟩ :=
      hsame
    refine ⟨?_, ?_, ?_, ?_, ?_, ?_, ?_, ?_, ?_, ?_, ?_⟩
    · rw [hndl]
      exact subsurface_scalar_field (fun s => s.ndl) (fun r => r.ndl.map some)
        (fun lv r => by cases hr : r.ndl <;> simp [subStep, hr]) nCyl records j b hb
    · rw [htts]
      exact subsurface_scalar_field (fun s => s.tts) (fun r => r.tts.map some)
        (fun lv r => by cases hr : r.tts <;> simp [subStep, hr]) nCyl records j b hb
    · rw [htemp]
      exact subsurface_scalar_field (fun s => s.temperature) (fun r => r.temp.map some)
        (fun lv r => by cases hr : r.temp <;> simp [subStep, hr]) nCyl records j b hb
    · rw [hsd]
      exact subsurface_scalar_field (fun s => s.stop_depth) (fun r => r.stopdepth.map some)
        (fun lv r => by cases hr : r.stopdepth <;> simp [subStep, hr]) nCyl records j b hb
    · rw [hst]
      exact subsurface_scalar_field (fun s => s.stop_time) (fun r => r.stoptime.map some)
        (fun lv r => by cases hr : r.stoptime <;> simp [subStep, hr]) nCyl records j b hb
    · rw [hppo2]
      exact subsurface_scalar_field (fun s => s.ppo2) (fun r => r.dc_supplied_ppo2.map some)
        (fun lv r => by cases hr : r.dc_supplied_ppo2 <;> simp [subStep, hr])
        nCyl records j b hb
    · rw [hcns]
      exact (subsurface_scalar_field (fun s => s.cns) (fun _ => none)
        (fun lv r => rfl) nCyl records j b hb).trans (lastSetValue_never _ _)
    · rw [hsac]
      exact (subsurface_scalar_field (fun s => s.sac) (fun _ => none)
        (fun lv r => rfl) nCyl records j b hb).trans (lastSetValue_never _ _)
    · rw [hgtr]
      exact (subsurface_scalar_field (fun s => s.gtr) (fun _ => none)
        (fun lv r => rfl) nCyl records j b hb).trans (lastSetValue_never _ _)
    · intro i hi
      rw [hsens]
      exact subsurface_sensor_slot nCyl i hi records j b hb
    · intro i hi
      rw [hpress]
      exact subsurface_pressure_slot nCyl i hi records j b hb
  · intro nCyl records j x hx
    have hx' : (subsurfaceSamples nCyl records).get? j = some x := hx
    constructor
    · exact (subsurface_scalar_field (fun s => s.fractionO2) (fun _ => none)
        (fun lv r => rfl) nCyl records j x hx').trans (lastSetValue_never _ _)
    · exact (subsurface_scalar_field (fun s => s.fractionHe) (fun _ => none)
        (fun lv r => rfl) nCyl records j x hx').trans (lastSetValue_never _ _)
  · intro records j x hx
    refine ⟨?_, ?_, ?_, ?_, ?_, ?_, ?_, ?_, ?_, ?_, ?_, ?_, ?_⟩
    · exact shear_scalar_field (fun s => s.ndl) (fun r => r.currentNdl.map some)
        (fun lv r => by cases hr : r.currentNdl <;> simp [shearStep, hr]) records j x hx
    · exact shear_scalar_field (fun s => s.tts) (fun r => r.ttsMins.map some)
        (fun lv r => by cases hr : r.ttsMins <;> simp [shearStep, hr]) records j x hx
    · exact shear_scalar_field (fun s => s.temperature) (fun r => r.waterTemp.map some)
        (fun lv r => by cases hr : r.waterTemp <;> simp [shearStep, hr]) records j x hx
    · exact shear_scalar_field (fun s => s.stop_depth) (fun r => r.firstStopDepth.map some)
        (fun lv r => by cases hr : r.firstStopDepth <;> simp [shearStep, hr]) records j x hx
    · exact shear_scalar_field (fun s => s.stop_time) (fun r => r.firstStopTime.map some)
        (fun lv r => by cases hr : r.firstStopTime <;> simp [shearStep, hr]) records j x hx
    · exact shear_scalar_field (fun s => s.fractionO2) (fun r => r.fractionO2.map some)
        (fun lv r => by cases hr : r.fractionO2 <;> simp [shearStep, hr]) records j x hx
    · exact shear_scalar_field (fun s => s.fractionHe) (fun r => r.fractionHe.map some)
        (fun lv r => by cases hr : r.fractionHe <;> simp [shearStep, hr]) records j x hx
    · exact shear_scalar_field (fun s => s.ppo2) (fun r => r.averagePPO2.map some)
        (fun lv r => by cases hr : r.averagePPO2 <;> simp [shearStep, hr]) records j x hx
    · exact shear_scalar_field (fun s => s.sac) (fun r => r.sac.map some)
        (fun lv r => by cases hr : r.sac <;> simp [shearStep, hr]) records j x hx
    · exact shear_scalar_field (fun s => s.gtr) (fun r => r.gasTime.map some)
        (fun lv r => by cases hr : r.gasTime <;> simp [shearStep, hr]) records j x hx
    · exact (shear_scalar_field (fun s => s.cns) (fun _ => none)
        (fun lv r => rfl) records j x hx).trans (lastSetValue_never _ _)
    · exact (shear_scalar_field (fun s => s.ppo2_sensors) (fun _ => none)
        (fun lv r => rfl) records j x hx).trans (lastSetValue_never _ _)
    · intro i hi
      exact shear_pressure_slot i hi records j x hx

/-- Concrete records for the carry-forward witness. -/
def subRecA : SubsurfaceRecord :=
  { time := 10, depth := some 5, ndl := some 40,
    pressure := fun i => if i = 0 then some 200 else none }

def subRecB : SubsurfaceRecord := { time := 20 }

def shearRecA : ShearwaterRecord := { currentTime_ms := 10000, fractionO2 := some 1 }

def shearRecB : ShearwaterRecord := { currentTime_ms := 20000 }

/-- Witness for the amended C1 theorem: the second record sets nothing, so
sample 1 still carries record 0's `ndl` and tank pressure, keeps the seed
default `stop_depth = 0`, and (Shearwater) carries record 0's `fractionO2`. -/
theorem carry_forward_witness :
    ((subsurfaceParse 1 [subRecA, subRecB] []).get? 1).map (fun s => s.ndl) =
      some (some 40) ∧
    ((subsurfaceParse 1 [subRecA, subRecB] []).get? 1).map
      (fun s => s.pressure.getD 0 none) = some (some 200) ∧
    ((subsurfaceParse 1 [subRecA, subRecB] []).get? 1).map (fun s => s.stop_depth) =
      some (some 0) ∧
    ((shearwaterSamples [shearRecA, shearRecB]).get? 1).map (fun s => s.fractionO2) =
      some (some 1) := by
  cases hx : (subsurfaceParse 1 [subRecA, subRecB] []).get? 1 with
  | none => exact absurd hx (by decide)
  | some x =>
    cases hy : (shearwaterSamples [shearRecA, shearRecB]).get? 1 with
    | none => exact absurd hy (by decide)
    | some y =>
      have h := carry_forward.1 1 [subRecA, subRecB] [] 1 x hx
      have h3 := carry_forward.2.2 [shearRecA, shearRecB] 1 y hy
      refine ⟨?_, ?_, ?_, ?_⟩
      · simp only [Option.map_some']
        rw [h.1]
        decide
      · simp only [Option.map_some']
        rw [h.2.2.2.2.2.2.2.2.2.2 0 (by decide)]
        decide
      · simp only [Option.map_some']
        rw [h.2.2.2.1]
        decide
      · simp only [Option.map_some']
        rw [h3.2.2.2.2.2.1]
        decide

/-- **C6 counterexample.** A plain-seconds string does *not* parse to its
value: `"90"` splits into a single part, which falls through both the
two-part and three-part arms and returns `0`, not `90`. -/
theorem parse_time_plain_seconds_counterexample :
    _parse_time_to_seconds (some ("90")) = .ok 0 ∧
    _parse_time_to_seconds (some ("90")) ≠ .ok 90 := by
  constructor
  · decide
  · decide

/-- **C6 (amended).** The sample time-field parser returns `MM*60 + SS` for
`MM:SS` and `H*3600 + MM*60 + SS` for `H:MM:SS` (after removing a `" min"`
suffix and whitespace), but for a plain-seconds string — or any other number
of `:`-separated parts — it returns `0`, not the value; a missing time raises
`NoDiveDataError` and an unparseable part raises `ValueError`, both of which
abort the whole parse instead of producing a sample. -/
theorem parse_time_to_seconds_behavior :
    (∀ (t : String) (a b : Int),
      (pySplit ':' (pyStrip (stripMinChars t.data))).mapM pyIntChars? = some [a, b] →
      _parse_time_to_seconds (some t) = .ok (a * 60 + b)) ∧
    (∀ (t : String) (a b c : Int),
      (pySplit ':' (pyStrip (stripMinChars t.data))).mapM pyIntChars? = some [a, b, c] →
      _parse_time_to_seconds (some t) = .ok (a * 3600 + b * 60 + c)) ∧
    (∀ (t : String) (a : Int),
      (pySplit ':' (pyStrip (stripMinChars t.data))).mapM pyIntChars? = some [a] →
      _parse_time_to_seconds (some t) = .ok 0) ∧
    (∀ (t : String),
      (pySplit ':' (pyStrip (stripMinChars t.data))).mapM pyIntChars? = none →
      _parse_time_to_seconds (some t) = .error ("invalid literal for int() with base 10")) ∧
    (_parse_time_to_seconds none = .error ("Time string cannot be None")) ∧
    _parse_time_to_seconds (some ("12:30")) = .ok 750 ∧
    _parse_time_to_seconds (some ("1:02:03")) = .ok 3723 ∧
    _parse_time_to_seconds (some ("7:15 min")) = .ok 435 ∧
    _parse_time_to_seconds (some ("abc")) =
      .error ("invalid literal for int() with base 10") := by
  refine ⟨?_, ?_, ?_, ?_, rfl, by decide, by decide, by decide, by decide⟩
  · intro t a b h
    simp only [_parse_time_to_seconds]
    rw [h]
  · intro t a b c h
    simp only [_parse_time_to_seconds]
    rw [h]
  · intro t a h
    simp only [_parse_time_to_seconds]
    rw [h]
  · intro t h
    simp only [_parse_time_to_seconds]
    rw [h]

/-- Witness for the amended C6 theorem: each hypothesis-bearing arm applied
at a concrete string. -/
theorem parse_time_to_seconds_behavior_witness :
    _parse_time_to_seconds (some ("02:05")) = .ok 125 ∧
    _parse_time_to_seconds (some ("2:00:01")) = .ok 7201 ∧
    _parse_time_to_seconds (some ("300")) = .ok 0 ∧
    _parse_time_to_seconds (some ("x:y")) =
      .error ("invalid literal for int() with base 10") := by
  refine ⟨parse_time_to_seconds_behavior.1 ("02:05") 2 5 (by decide),
    parse_time_to_seconds_behavior.2.1 ("2:00:01") 2 0 1 (by decide),
    parse_time_to_seconds_behavior.2.2.1 ("300") 300 (by decide),
    parse_time_to_seconds_behavior.2.2.2.1 ("x:y") (by decide)⟩

/-- The five graph-section keys `compile_profile_template` requires
(`src/profile_graph.py` line 665). -/
def profileRequiredFields : List String :=
  [("position"), ("width"), ("height"), ("line"), ("indicator")]

/-- The validation prefix of `compile_profile_template`
(`src/profile_graph.py` lines 650-668), which runs before any drawing: the
empty/one-sample checks, the non-positive duration check, the missing
`graph`-section check, and the missing-required-fields check.  The template's
`graph` section is modelled by the set of keys it contains (`none` = the
template has no `graph` key); the rest of the function only draws pixels and
is outside this embedding. -/
def compile_profile_template_validation (dive_samples : List DiveSample)
    (duration : Int) (graph : Option (List String)) : Except String Unit :=
  if dive_samples.isEmpty then
    .error ("Cannot create profile graph: no dive samples provided")
  else if dive_samples.length = 1 then
    .error ("Cannot create profile graph: only 1 sample (need at least 2 for a line)")
  else if duration ≤ 0 then
    .error ("Cannot create profile graph: invalid duration " ++ toString duration ++ "s")
  else
    match graph with
    | none => .error ("Invalid profile template: missing 'graph' section")
    | some keys =>
      let missing := profileRequiredFields.filter (fun f => decide (¬ f ∈ keys))
      if ¬ missing.isEmpty then
        .error ("Invalid profile template: graph section missing fields: " ++
          String.intercalate (", ") missing)
      else
        .ok ()

/-- **C9.** Profile-template compilation raises a validation error (it never
silently defaults) whenever the sample list has fewer than 2 samples (empty
included), the duration is non-positive, the template has no graph section,
or the graph section lacks one of position/width/height/line/indicator. -/
theorem profile_template_validation_errors :
    ∀ (samples : List DiveSample) (duration : Int) (graph : Option (List String)),
      (samples.length < 2 ∨ duration ≤ 0 ∨ graph = none ∨
        (∃ keys, graph = some keys ∧ ∃ f ∈ profileRequiredFields, ¬ f ∈ keys)) →
      ∃ msg, compile_profile_template_validation samples duration graph = .error msg := by
  intro samples duration graph hbad
  unfold compile_profile_template_validation
  by_cases h1 : samples.isEmpty
  · rw [if_pos h1]
    exact ⟨_, rfl⟩
  · rw [if_neg h1]
    by_cases h2 : samples.length = 1
    · rw [if_pos h2]
      exact ⟨_, rfl⟩
    · rw [if_neg h2]
      by_cases h3 : duration ≤ 0
      · rw [if_pos h3]
        exact ⟨_, rfl⟩
      · rw [if_neg h3]
        cases hg : graph with
        | none => exact ⟨_, rfl⟩
        | some keys =>
          by_cases h4 :
              (profileRequiredFields.filter (fun f => decide (¬ f ∈ keys))).isEmpty
          · exfalso
            rcases hbad with hlen | hdur | hnone | ⟨keys', hkeys, f, hf, hfnot⟩
            · have h0 : ¬ samples.length = 0 := by
                simpa [List.isEmpty_eq_true, List.length_eq_zero] using h1
              omega
            · exact h3 hdur
            · rw [hg] at hnone
              cases hnone
            · rw [hg] at hkeys
              injection hkeys with hk
              subst hk
              have hall := List.filter_eq_nil_iff.mp (List.isEmpty_eq_true.mp h4) f hf
              simp only [decide_eq_true_eq, not_not] at hall
              exact hfnot hall
          · exact ⟨_, if_pos h4⟩

/-- Witness for C9: each of the five invalid shapes produces an error. -/
theorem profile_template_validation_errors_witness :
    (∃ msg, compile_profile_template_validation [] 100 (some profileRequiredFields) =
      .error msg) ∧
    (∃ msg, compile_profile_template_validation [mkSample 0] 100
      (some profileRequiredFields) = .error msg) ∧
    (∃ msg, compile_profile_template_validation [mkSample 0, mkSample 60] 0
      (some profileRequiredFields) = .error msg) ∧
    (∃ msg, compile_profile_template_validation [mkSample 0, mkSample 60] 100 none =
      .error msg) ∧
    (∃ msg, compile_profile_template_validation [mkSample 0, mkSample 60] 100
      (some [("position"), ("width"), ("height"), ("line")]) = .error msg) :=
  ⟨profile_template_validation_errors [] 100 (some profileRequiredFields)
      (Or.inl (by decide)),
    profile_template_validation_errors [mkSample 0] 100 (some profileRequiredFields)
      (Or.inl (by decide)),
    profile_template_validation_errors [mkSample 0, mkSample 60] 0
      (some profileRequiredFields) (Or.inr (Or.inl (by decide))),
    profile_template_validation_errors [mkSample 0, mkSample 60] 100 none
      (Or.inr (Or.inr (Or.inl rfl))),
    profile_template_validation_errors [mkSample 0, mkSample 60] 100
      (some [("position"), ("width"), ("height"), ("line")])
      (Or.inr (Or.inr (Or.inr ⟨[("position"), ("width"), ("height"), ("line")], rfl,
        ("indicator"), by decide, by decide⟩)))⟩

/-!
## Compute expressions (`src/overlay.py` lines 263-316) and the renderer's
fallback substitution (lines 205-236)
-/

def lbrace : Char := Char.ofNat 123

def rbrace : Char := Char.ofNat 125

/-- A Python value as seen by `getattr` on a `DiveSample`: an int field, a
float field, or one of the two list-of-optional-float fields. -/
inductive PyValue where
  | int (n : Int)
  | num (q : ℚ)
  | list (l : List (Option ℚ))
deriving DecidableEq, Repr

/-- `getattr(data, field_name, None)` on the `DiveSample` dataclass: a
`None`-valued attribute and an unknown attribute both give `none`. -/
def getattrField (data : DiveSample) (name : String) : Option PyValue :=
  if name = ("time") then some (.int data.time)
  else if name = ("depth") then some (.num data.depth)
  else if name = ("ndl") then data.ndl.map .int
  else if name = ("tts") then data.tts.map .int
  else if name = ("stop_depth") then data.stop_depth.map .num
  else if name = ("stop_time") then data.stop_time.map .int
  else if name = ("temperature") then data.temperature.map .num
  else if name = ("pressure") then some (.list data.pressure)
  else if name = ("fractionO2") then data.fractionO2.map .num
  else if name = ("fractionHe") then data.fractionHe.map .num
  else if name = ("sac") then data.sac.map .num
  else if name = ("gtr") then data.gtr.map .int
  else if name = ("ppo2") then data.ppo2.map .num
  else if name = ("cns") then data.cns.map .int
  else if name = ("ppo2_sensors") then some (.list data.ppo2_sensors)
  else none

/-- Python `round()` on an exact rational: round half to even. -/
def pyRound (q : ℚ) : Int :=
  if q - (⌊q⌋ : ℚ) = 1 / 2 then (if ⌊q⌋ % 2 = 0 then ⌊q⌋ else ⌊q⌋ + 1) else round q

/-- `f"{n:0{width}d}"`: zero-pad to `width` (the sign counts toward it). -/
def padInt (width : Nat) (n : Int) : List Char :=
  let s := (toString n.natAbs).data
  let sign : List Char := if n < 0 then [Char.ofNat 45] else []
  sign ++ List.replicate (width - (s.length + sign.length)) '0' ++ s

/-- Fixed-point rendering with `prec` decimals (rounding half to even at the
last digit; Python formats binary floats, whose final-digit rounding on
non-representable values is not modelled — no theorem depends on these
strings). -/
def fixedPoint (prec : Nat) (q : ℚ) : List Char :=
  let sign : List Char := if q < 0 then [Char.ofNat 45] else []
  let scaled := pyRound (|q| * ((10 : ℚ) ^ prec))
  let ip := scaled / ((10 : Int) ^ prec)
  let fp := scaled % ((10 : Int) ^ prec)
  sign ++ (toString ip).data ++ (if prec = 0 then [] else '.' :: padInt prec fp)

/-- Python `str(v)` for the values a compute expression can reference.
Floats are rendered with 6 decimals: Python's shortest-round-trip float
`repr` is not modelled (no theorem depends on these strings). -/
def pyStr (v : PyValue) : List Char :=
  match v with
  | .int n => (toString n).data
  | .num q => fixedPoint 6 q
  | .list l =>
    let item := fun (o : Option ℚ) =>
      match o with
      | none => ('N' :: 'o' :: 'n' :: 'e' :: [])
      | some q => fixedPoint 6 q
    '[' :: (List.intercalate [',', ' '] (l.map item)) ++ [']']

/-- The format branch of `evaluate_compute_expression` (lines 290-310).
`{field:NN%}`: value × 100, `round`ed, zero-padded to `int(NN)` digits
(`NN` empty defaults to 2); a `ValueError`/`TypeError` (bad digits, negative
precision, list value) falls back to `str(value)` exactly as the
`try/except` does.  `{field:..f..}`: fixed-point via `f"{v:{spec}}"`, also
`try/except`-guarded; only the documented `[width]f` / `.Nf` shapes are
modelled precisely, `width` (a cosmetic pad) is ignored.  Any other
non-empty spec reaches Python's unguarded `format(v, spec)`; for specs
outside the documented mini-language that call may raise — it is modelled as
`str(v)` and no theorem relies on it. -/
def formatValue (format_spec : String) (v : PyValue) : List Char :=
  let fs := format_spec.data
  if fs.isEmpty then pyStr v
  else if fs.getLast? = some ('%') then
    let digits := fs.dropLast
    match (if digits.isEmpty then some 2 else pyIntChars? digits), v with
    | some p, PyValue.int n =>
      if 0 ≤ p then padInt p.toNat (pyRound ((n : ℚ) * 100)) else pyStr v
    | some p, PyValue.num q =>
      if 0 ≤ p then padInt p.toNat (pyRound (q * 100)) else pyStr v
    | some _, PyValue.list l => pyStr (PyValue.list l)
    | none, _ => pyStr v
  else if fs.contains 'f' then
    match v with
    | PyValue.num q => fixedFormat fs q
    | PyValue.int n => fixedFormat fs (n : ℚ)
    | PyValue.list l => pyStr (PyValue.list l)
  else
    pyStr v
where
  /-- `f"{v:{spec}}"` for specs of shape `[width][.prec]f`. -/
  fixedFormat (fs : List Char) (q : ℚ) : List Char :=
    let core := if fs.getLast? = some 'f' then fs.dropLast else fs
    let widthChars := core.takeWhile Char.isDigit
    let rest := core.drop widthChars.length
    match rest with
    | [] => fixedPoint 6 q
    | '.' :: ds =>
      if !ds.isEmpty && ds.all Char.isDigit then
        fixedPoint (ds.foldl (fun a c => 10 * a + (c.toNat - 48)) 0) q
      else pyStr (.num q)
    | _ => pyStr (.num q)

/-- The scanner for `re.findall(r"\{([^}:]+)(?::([^}]+))?\}", expr)`:
non-overlapping matches scanned left to right; a match is `{`, one or more
characters that are neither `}` nor `:` (the field), optionally `:` followed
by one or more non-`}` characters (the format spec), then `}`.  On a failed
attempt scanning resumes one character after the `{`; after a match it
resumes after the `}`.  Fuel-bounded: each step consumes at least one input
character, so `fuel = input length` always suffices (the wrapper passes
exactly that; the two `[]` early returns fire only when no `}` remains, in
which case no further match exists). -/
def scanAux : Nat → List Char → List (String × String)
  | _, [] => []
  | 0, _ => []
  | fuel + 1, c :: rest =>
    if c = lbrace then
      let fieldChars := rest.takeWhile (fun d => !(d = rbrace || d = ':'))
      let rest2 := rest.drop fieldChars.length
      if fieldChars.isEmpty then scanAux fuel rest
      else
        match rest2 with
        | [] => []
        | d :: rest3 =>
          if d = rbrace then (String.mk fieldChars, String.mk []) :: scanAux fuel rest3
          else if d = ':' then
            let fmtChars := rest3.takeWhile (fun x => !(x = rbrace))
            let rest4 := rest3.drop fmtChars.length
            if fmtChars.isEmpty then scanAux fuel rest
            else
              match rest4 with
              | [] => []
              | _ :: rest5 =>
                (String.mk fieldChars, String.mk fmtChars) :: scanAux fuel rest5
          else scanAux fuel rest
    else scanAux fuel rest

/-- All `(field, format)` matches of a compute expression. -/
def scanMatches (s : String) : List (String × String) :=
  scanAux s.data.length s.data

/-- The substitution loop of `evaluate_compute_expression` (lines 281-316):
for each match in order, look the field up with `getattr`; a `None` value
aborts the whole evaluation with "no value" (`return None`), discarding any
substitutions already made; otherwise format the value and replace every
occurrence of the reconstructed `{field}` / `{field:spec}` pattern in the
working string. -/
def evalMatches (data : DiveSample) :
    List (String × String) → List Char → Option (List Char)
  | [], result => some result
  | (field_name, format_spec) :: ms, result =>
    match getattrField data field_name with
    | none => none
    | some field_value =>
      let formatted_value := formatValue format_spec field_value
      let old_pattern :=
        if format_spec = ("") then lbrace :: field_name.data ++ [rbrace]
        else lbrace :: field_name.data ++ ':' :: format_spec.data ++ [rbrace]
      evalMatches data ms
        (replaceChars old_pattern formatted_value result.length result)

/-- `evaluate_compute_expression(compute_expr, data)`. -/
def evaluate_compute_expression (compute_expr : String) (data : DiveSample) :
    Option String :=
  (evalMatches data (scanMatches compute_expr) compute_expr.data).map String.mk

/-- The value-resolution step of `_render_dynamic_frame` (lines 210-217) for
an item with a compute expression: evaluate it, and if that yields "no
value", draw the item's declared fallback literal instead. -/
def resolveComputeValue (compute_expr fallback : String) (data : DiveSample) : String :=
  match evaluate_compute_expression compute_expr data with
  | none => fallback
  | some value => value

theorem evalMatches_none (data : DiveSample) :
    ∀ (ms : List (String × String)) (acc : List Char) (f : String),
      f ∈ ms.map Prod.fst → getattrField data f = none →
      evalMatches data ms acc = none := by
  intro ms
  induction ms with
  | nil => intro acc f hf _; simp at hf
  | cons m ms ih =>
    intro acc f hf hnone
    obtain ⟨fn, fs⟩ := m
    simp only [List.map_cons, List.mem_cons] at hf
    cases hget : getattrField data fn with
    | none => simp [evalMatches, hget]
    | some v =>
      rcases hf with hf | hf
      · rw [← hf, hnone] at hget
        cases hget
      · simp only [evalMatches, hget]
        exact ih _ f hf hnone

/-- **C8.** If any field referenced by a compute expression is absent
(`None`) on the sample, the whole expression evaluates to "no value" — the
substitutions already made for earlier fields are discarded — and the frame
renderer draws the item's declared fallback literal, never a partially
substituted string; in particular `"{fractionO2:02%}/{fractionHe:02%}"`
against a sample with `fractionO2 = 0.32` and `fractionHe = None` evaluates
to `none` and renders the fallback literal. -/
theorem compute_expression_fallback :
    (∀ (expr : String) (data : DiveSample) (f : String),
      f ∈ (scanMatches expr).map Prod.fst → getattrField data f = none →
      evaluate_compute_expression expr data = none) ∧
    (∀ (expr fallback : String) (data : DiveSample) (f : String),
      f ∈ (scanMatches expr).map Prod.fst → getattrField data f = none →
      resolveComputeValue expr fallback data = fallback) ∧
    (scanMatches ("\x7bfractionO2:02%\x7d/\x7bfractionHe:02%\x7d") =
      [(("fractionO2"), ("02%")), (("fractionHe"), ("02%"))]) ∧
    (evaluate_compute_expression ("\x7bfractionO2:02%\x7d/\x7bfractionHe:02%\x7d")
      { mkSample 0 with fractionO2 := some (32 / 100), fractionHe := none } = none) ∧
    (resolveComputeValue ("\x7bfractionO2:02%\x7d/\x7bfractionHe:02%\x7d") ("N/A")
      { mkSample 0 with fractionO2 := some (32 / 100), fractionHe := none } = ("N/A")) := by
  have h1 : ∀ (expr : String) (data : DiveSample) (f : String),
      f ∈ (scanMatches expr).map Prod.fst → getattrField data f = none →
      evaluate_compute_expression expr data = none := by
    intro expr data f hf hnone
    unfold evaluate_compute_expression
    rw [evalMatches_none data (scanMatches expr) expr.data f hf hnone]
    rfl
  refine ⟨h1, ?_, by decide, by decide, by decide⟩
  intro expr fallback data f hf hnone
  unfold resolveComputeValue
  rw [h1 expr data f hf hnone]

/-- Witness for C8: the hypothesis-carrying parts applied to the concrete
expression and sample of the claim (the absent field is `fractionHe`). -/
theorem compute_expression_fallback_witness :
    evaluate_compute_expression ("\x7bfractionO2:02%\x7d/\x7bfractionHe:02%\x7d")
      { mkSample 0 with fractionO2 := some (32 / 100), fractionHe := none } = none ∧
    resolveComputeValue ("\x7bfractionO2:02%\x7d/\x7bfractionHe:02%\x7d") ("N/A")
      { mkSample 0 with fractionO2 := some (32 / 100), fractionHe := none } = ("N/A") :=
  ⟨compute_expression_fallback.1 ("\x7bfractionO2:02%\x7d/\x7bfractionHe:02%\x7d")
      { mkSample 0 with fractionO2 := some (32 / 100), fractionHe := none }
      ("fractionHe") (by decide) (by decide),
    compute_expression_fallback.2.1 ("\x7bfractionO2:02%\x7d/\x7bfractionHe:02%\x7d")
      ("N/A") { mkSample 0 with fractionO2 := some (32 / 100), fractionHe := none }
      ("fractionHe") (by decide) (by decide)⟩
